import Mathlib

/-
  Verification of the Big Two server core (`src/server/engine.js`,
  `src/server/roomManager.js`).

  Shallow embedding conventions:
  * JavaScript card objects `{id, r, s}` are `Card` structures; the `id`
    string is the pair (rank, suit), so identifiers and cards coincide.
  * JS arrays become `List`, `Set` becomes a duplicate-free `List` grown by
    membership-checked insertion, and `Array.prototype.sort` with the total
    comparator `compareCard` becomes `List.insertionSort` over the
    corresponding relation (the comparator is a total order, so any
    comparison sort produces the same output list).
  * Functions that `throw` become `Except (String × Room) Room`, the error
    carrying the room state as it stands at the throw site.
  * `Math.random()` is passed in as an explicit parameter where the code
    consumes it.
-/

namespace Big2

/-- Ranks in ascending engine order: `RANKS = ['3',...,'2']`. -/
inductive Rank
  | r3 | r4 | r5 | r6 | r7 | r8 | r9 | r10 | rJ | rQ | rK | rA | r2
  deriving DecidableEq, Repr, Fintype

/-- Suits in ascending engine order: `SUITS = ['D','C','H','S']`. -/
inductive Suit
  | D | C | H | S
  deriving DecidableEq, Repr, Fintype

/-- `RANK_VALUE`: index of a rank in the `RANKS` array. -/
def rankValue : Rank → Nat
  | .r3 => 0 | .r4 => 1 | .r5 => 2 | .r6 => 3 | .r7 => 4 | .r8 => 5
  | .r9 => 6 | .r10 => 7 | .rJ => 8 | .rQ => 9 | .rK => 10 | .rA => 11
  | .r2 => 12

/-- `SUIT_VALUE`: index of a suit in the `SUITS` array. -/
def suitValue : Suit → Nat
  | .D => 0 | .C => 1 | .H => 2 | .S => 3

/-- The `RANKS` array, in source order. -/
def RANKS : List Rank :=
  [.r3, .r4, .r5, .r6, .r7, .r8, .r9, .r10, .rJ, .rQ, .rK, .rA, .r2]

/-- The `SUITS` array, in source order. -/
def SUITS : List Suit := [.D, .C, .H, .S]

/-- A card `{id, r, s}`; the `id` string is determined by `(r, s)`. -/
structure Card where
  r : Rank
  s : Suit
  deriving DecidableEq, Repr, Fintype

/-- Placeholder used where JS would read an element of a list whose
presence is guaranteed by the caller. -/
def dfltCard : Card := ⟨.r3, .D⟩

/-- `makeDeck()`: all 52 cards, suits outer, ranks inner. -/
def makeDeck : List Card :=
  SUITS.flatMap (fun s => RANKS.map (fun r => ⟨r, s⟩))

/-- `compareCard(a, b)`: rank index difference, suit index difference as
tiebreak (result sign drives the sort). -/
def compareCard (a b : Card) : Int :=
  if rankValue a.r ≠ rankValue b.r then (rankValue a.r : Int) - rankValue b.r
  else (suitValue a.s : Int) - suitValue b.s

/-- The "a sorts no later than b" relation induced by `compareCard`. -/
def cardle (a b : Card) : Prop := compareCard a b ≤ 0

instance : DecidableRel cardle :=
  fun a b => show Decidable (compareCard a b ≤ 0) from inferInstance

/-- Injective linear key realising the `compareCard` order. -/
def cardKey (c : Card) : Nat := rankValue c.r * 4 + suitValue c.s

/-- `sortHand(hand)`: sort ascending by `compareCard`. -/
def sortHand (hand : List Card) : List Card := hand.insertionSort cardle

/-- Combination tags: the eight legal variants. -/
inductive ComboType
  | single | pair | triple | straight | flush | fullhouse | fourkind
  | straightflush
  deriving DecidableEq, Repr, Fintype

/-- A classified combination: the tag and the numeric comparison key
(the `info` payload of the JS object is derived data unused by
comparison and is not modelled). -/
structure Combo where
  type : ComboType
  key : Nat
  deriving DecidableEq, Repr

/-- `sameRank(cards)`: every card has the first card's rank. -/
def sameRank (cards : List Card) : Bool :=
  cards.all (fun c => c.r == (cards.headD dfltCard).r)

/-- `keyCard(c) = RANK_VALUE[c.r]*10 + SUIT_VALUE[c.s]`. -/
def keyCard (c : Card) : Nat := rankValue c.r * 10 + suitValue c.s

/-- `keyPair(cards)`: rank primary, higher suit of the two as tiebreak. -/
def keyPair (cards : List Card) : Nat :=
  match cards with
  | a :: b :: _ => rankValue a.r * 10 + max (suitValue a.s) (suitValue b.s)
  | _ => 0

/-- The ten straight windows, lowest first (`sequences` in the source). -/
def sequences : List (List Rank) :=
  [[.rA, .r2, .r3, .r4, .r5],
   [.r2, .r3, .r4, .r5, .r6],
   [.r3, .r4, .r5, .r6, .r7],
   [.r4, .r5, .r6, .r7, .r8],
   [.r5, .r6, .r7, .r8, .r9],
   [.r6, .r7, .r8, .r9, .r10],
   [.r7, .r8, .r9, .r10, .rJ],
   [.r8, .r9, .r10, .rJ, .rQ],
   [.r9, .r10, .rJ, .rQ, .rK],
   [.r10, .rJ, .rQ, .rK, .rA]]

/-- Sort a rank list ascending by `RANK_VALUE` (used inside `isSameSet`). -/
def sortRanks (l : List Rank) : List Rank :=
  l.insertionSort (fun a b => rankValue a ≤ rankValue b)

/-- `isSameSet(arr, target)`: sort both by rank value and compare
element-wise (both arguments always have length 5 at the call site, where
element-wise comparison coincides with list equality). -/
def isSameSet (arr target : List Rank) : Bool :=
  sortRanks arr == sortRanks target

/-- Suit value of the top card of the matched window: the source filters
the sorted hand to the window's top rank and takes the highest-suit match. -/
def topSuitOfRank (sorted : List Card) (topRank : Rank) : Nat :=
  ((sorted.filter (fun c => c.r == topRank)).map (fun c => suitValue c.s)).foldl
    max 0

/-- `straightRank(sorted)`: `some key` when the ranks form one of the ten
windows (key = window index × 10 + top card's suit value), else `none`. -/
def straightRank (sorted : List Card) : Option Nat :=
  let ranks := sorted.map (fun c => c.r)
  if ranks.dedup.length ≠ 5 then none
  else
    sequences.enum.findSome? (fun p =>
      if isSameSet ranks p.2 then
        some (p.1 * 10 + topSuitOfRank sorted (p.2.getLastD .rA))
      else none)

/-- Per-rank multiplicities in descending order (`values` in the source). -/
def countValuesDesc (sorted : List Card) : List Nat :=
  ((sorted.map (fun c => c.r)).dedup.map
    (fun r => (sorted.filter (fun c => c.r == r)).length)).insertionSort
    (fun a b => b ≤ a)

/-- First rank with the given multiplicity (`Object.keys(counts).find`). -/
def rankWithCount (sorted : List Card) (k : Nat) : Option Rank :=
  (sorted.map (fun c => c.r)).dedup.find?
    (fun r => (sorted.filter (fun c => c.r == r)).length == k)

/-- `classifyFive(sorted)`: straightflush / fourkind / fullhouse / flush /
straight, in the source's test order. -/
def classifyFive (sorted : List Card) : Option Combo :=
  let isFlush := sorted.all (fun c => c.s == (sorted.headD dfltCard).s)
  let straightInfo := straightRank sorted
  if isFlush ∧ straightInfo.isSome then
    some ⟨.straightflush, straightInfo.getD 0⟩
  else
    let values := countValuesDesc sorted
    if values.getD 0 0 = 4 then
      some ⟨.fourkind, rankValue ((rankWithCount sorted 4).getD .r3)⟩
    else if values.getD 0 0 = 3 ∧ values.getD 1 0 = 2 then
      some ⟨.fullhouse, rankValue ((rankWithCount sorted 3).getD .r3)⟩
    else if isFlush then
      let top := sorted.getLastD dfltCard
      some ⟨.flush, suitValue top.s * 100 + rankValue top.r⟩
    else
      match straightInfo with
      | some k => some ⟨.straight, k⟩
      | none => none

/-- `classify` body after `n` and `sorted` have been computed. -/
def classifyCore (n : Nat) (sorted : List Card) : Option Combo :=
  if n = 1 then some ⟨.single, keyCard (sorted.headD dfltCard)⟩
  else if n = 2 ∧ sameRank sorted then some ⟨.pair, keyPair sorted⟩
  else if n = 3 ∧ sameRank sorted then
    some ⟨.triple, rankValue (sorted.headD dfltCard).r⟩
  else if n = 5 then classifyFive sorted
  else none

/-- `classify(cards)`: length plus sorted hand drive the result. -/
def classify (cards : List Card) : Option Combo :=
  classifyCore cards.length (sortHand cards)

/-- The five-card category hierarchy (`order` in `compareCombos`). -/
def fiveOrder : List ComboType :=
  [.straight, .flush, .fullhouse, .fourkind, .straightflush]

/-- `order.indexOf(t)`, with `none` for the JS `-1`. -/
def fiveOrderIdx (t : ComboType) : Option Nat :=
  fiveOrder.findIdx? (fun u => u == t)

/-- `compareCombos(cA, cB)`: same type compares keys; different types
compare category indices; `none` models the JS `NaN` result when a
non-five type is involved across differing types. -/
def compareCombos (cA cB : Combo) : Option Int :=
  if cA.type ≠ cB.type then
    match fiveOrderIdx cA.type, fiveOrderIdx cB.type with
    | some ia, some ib => some ((ia : Int) - ib)
    | _, _ => none
  else some ((cA.key : Int) - cB.key)

/-- `isFive(c)`: the type is one of the five-card categories. -/
def comboIsFive (c : Combo) : Bool := fiveOrder.contains c.type

/-- `canBeat(prev, next)`; `prev = none` is the JS `!prev` fresh-trick
case. A JS `NaN` comparison makes both `< 0` and `=== 0` false, so the
`none` branch returns `false`. -/
def canBeat (prev : Option Combo) (next : Combo) : Bool :=
  match prev with
  | none => true
  | some p =>
    if p.type = ComboType.single ∧ next.type = ComboType.single then
      decide (next.key > p.key)
    else if p.type = ComboType.pair ∧ next.type = ComboType.pair then
      decide (next.key > p.key)
    else if p.type = ComboType.triple ∧ next.type = ComboType.triple then
      decide (next.key > p.key)
    else if comboIsFive p ∧ comboIsFive next then
      match compareCombos p next with
      | some v => decide (v < 0) || (decide (v = 0) && decide (next.key > p.key))
      | none => false
    else false

/-- `includes3D(cards)`. -/
def includes3D (cards : List Card) : Bool :=
  cards.any (fun c => c == (⟨.r3, .D⟩ : Card))

-- ===== AI BOT LOGIC =====

/-- `findAllPairs(hand)`: index pairs `i < j` with equal rank, in loop
order. -/
def findAllPairs (hand : List Card) : List (List Card) :=
  hand.enum.flatMap (fun a =>
    (hand.enum.filter (fun b => a.1 < b.1 ∧ a.2.r = b.2.r)).map
      (fun b => [a.2, b.2]))

/-- `findAllTriples(hand)`: index triples `i < j < k` of one rank. -/
def findAllTriples (hand : List Card) : List (List Card) :=
  hand.enum.flatMap (fun a =>
    (hand.enum.filter (fun b => a.1 < b.1 ∧ a.2.r = b.2.r)).flatMap (fun b =>
      (hand.enum.filter (fun c => b.1 < c.1 ∧ b.2.r = c.2.r)).map
        (fun c => [a.2, b.2, c.2])))

/-- `findAllFiveCardCombos(hand)`: all index-ascending 5-subsets that
classify to a five-card category, in loop order. -/
def findAllFiveCardCombos (hand : List Card) : List (List Card) :=
  (hand.enum.flatMap (fun a =>
    (hand.enum.filter (fun b => a.1 < b.1)).flatMap (fun b =>
      (hand.enum.filter (fun c => b.1 < c.1)).flatMap (fun c =>
        (hand.enum.filter (fun d => c.1 < d.1)).flatMap (fun d =>
          (hand.enum.filter (fun e => d.1 < e.1)).map (fun e =>
            [a.2, b.2, c.2, d.2, e.2])))))).filter (fun five =>
    match classify five with
    | some combo => comboIsFive combo
    | none => false)

/-- `findLowestPair(hand)`. -/
def findLowestPair (hand : List Card) : Option (List Card) :=
  (findAllPairs hand).head?

/-- `findBestFiveCardCombo(hand)`: first enumerated five-card combo. -/
def findBestFiveCardCombo (hand : List Card) : Option (List Card) :=
  (findAllFiveCardCombos hand).head?

/-- `findValidPlays(hand, lastPlayType)`: every same-shape combination in
hand that beats the standing play, in enumeration order. -/
def findValidPlays (hand : List Card) (lastPlayType : Combo) : List (List Card) :=
  if lastPlayType.type = ComboType.single then
    (hand.filter (fun card =>
      match classify [card] with
      | some combo => canBeat (some lastPlayType) combo
      | none => false)).map (fun card => [card])
  else if lastPlayType.type = ComboType.pair then
    (findAllPairs hand).filter (fun pair =>
      match classify pair with
      | some combo => canBeat (some lastPlayType) combo
      | none => false)
  else if lastPlayType.type = ComboType.triple then
    (findAllTriples hand).filter (fun triple =>
      match classify triple with
      | some combo => canBeat (some lastPlayType) combo
      | none => false)
  else if comboIsFive lastPlayType then
    (findAllFiveCardCombos hand).filter (fun five =>
      match classify five with
      | some combo => canBeat (some lastPlayType) combo
      | none => false)
  else []

/-- `Math.min(...l)` over a nonempty list (the call site always passes
four entries). -/
def minIntList (l : List Int) : Int :=
  match l with
  | [] => 0
  | x :: xs => xs.foldl min x

/-- `getAIPlay(hand, lastPlay, lastPlayType, allPlayerCounts)`; the
standing play is passed as the pair of fields the caller reads, and
`rand` is the value of `Math.random() < 0.5`. Returns `none` to pass. -/
def getAIPlay (hand : List Card) (lastPlayPresent : Bool)
    (lastPlayType : Option Combo) (allPlayerCounts : List Int)
    (rand : Bool) : Option (List Card) :=
  if hand.isEmpty then none
  else if ¬lastPlayPresent ∨ lastPlayType.isNone then
    match findBestFiveCardCombo hand with
    | some five => some five
    | none =>
      match findLowestPair hand with
      | some pair => some pair
      | none => some [hand.headD dfltCard]
  else
    let validPlays := findValidPlays hand (lastPlayType.getD ⟨.single, 0⟩)
    if validPlays.isEmpty then none
    else
      -- `allPlayerCounts.filter((_, idx) => idx !== -1)`: the predicate
      -- tests the array INDEX against -1, which never holds, so every
      -- entry survives — including the caller's own -1 sentinel.
      let minOpponentCards :=
        minIntList ((allPlayerCounts.enum.filter
          (fun p => (p.1 : Int) ≠ -1)).map (fun p => p.2))
      if minOpponentCards ≤ 3 then some (validPlays.getLastD [])
      else if minOpponentCards ≤ 5 ∧ rand then
        some (validPlays.getD (validPlays.length / 2) [])
      else some (validPlays.getD 0 [])

-- ===== ROOM STATE MACHINE (roomManager.js) =====

/-- One seat's mutable game fields (`hand`, `passed`); the transport
fields (socket, name, disconnect bookkeeping) live outside the core. -/
structure PlayerSt where
  hand : List Card
  passed : Bool
  deriving DecidableEq, Repr

def dfltPlayer : PlayerSt := ⟨[], false⟩

/-- A history entry `{ by, type, count, cards }`. -/
structure HistEntry where
  byIdx : Nat
  type : ComboType
  count : Nat
  cards : List Card
  deriving DecidableEq, Repr

def dfltHist : HistEntry := ⟨0, .single, 0, []⟩

/-- The standing play `{ by, combo, cards }`. -/
structure LastPlay where
  byIdx : Nat
  combo : Combo
  cards : List Card
  deriving DecidableEq, Repr

/-- The game-relevant room fields (timers, chat and transport fields are
outside the shallow embedding). `playedCards` models the JS `Set` as a
duplicate-free list grown by membership-checked insertion. -/
structure Room where
  players : List PlayerSt
  lastPlay : Option LastPlay
  lastPlayType : Option Combo
  turn : Nat
  leader : Nat
  firstTrick : Bool
  finished : Bool
  history : List HistEntry
  scores : List Nat
  matchNumber : Nat
  enforce3D : Bool
  playedCards : List Card
  deriving DecidableEq, Repr

/-- `allOthersPassed(room)`. -/
def allOthersPassed (room : Room) : Bool :=
  match room.lastPlay with
  | none => false
  | some lp => room.players.enum.all (fun p => p.1 == lp.byIdx || p.2.passed)

/-- `nextAlive(room, fromIdx)`: first of the next four seats clockwise
that may act (everyone on a fresh trick; else the standing play's owner
or any seat that has not passed), falling back to `fromIdx`. -/
def nextAlive (room : Room) (fromIdx : Nat) : Nat :=
  match ([1, 2, 3, 4].map (fun k => (fromIdx + k) % 4)).find? (fun i =>
    match room.lastPlay with
    | none => true
    | some lp => i == lp.byIdx || !(room.players.getD i dfltPlayer).passed) with
  | some i => i
  | none => fromIdx

/-- `endTrick(room)`: standing play's owner leads the next trick; passed
flags and the standing play are cleared. (The source dereferences
`room.lastPlay.by` unconditionally; callers guarantee it is set.) -/
def endTrick (room : Room) : Room :=
  match room.lastPlay with
  | none => room
  | some lp =>
    { room with
      players := room.players.map (fun p => { p with passed := false }),
      leader := lp.byIdx,
      turn := lp.byIdx,
      lastPlay := none,
      lastPlayType := none }

/-- `room.players[meIdx].passed = true`. -/
def markPassed (room : Room) (meIdx : Nat) : Room :=
  { room with
    players := room.players.set meIdx
      { room.players.getD meIdx dfltPlayer with passed := true } }

/-- `handlePass`: validations throw (carrying the room as it stands at
the throw site), then the pass is applied. -/
def handlePass (room : Room) (meIdx : Nat) : Except (String × Room) Room :=
  if room.finished then .error ("Not in game", room)
  else if meIdx ≠ room.turn then .error ("Not your turn", room)
  else if room.lastPlay.isNone then .error ("Cannot pass on a fresh trick", room)
  else
    let room1 := markPassed room meIdx
    if allOthersPassed room1 then .ok (endTrick room1)
    else .ok { room1 with turn := nextAlive room1 meIdx }

/-- `penaltyPoints(cardsLeft)`. -/
def penaltyPoints (cardsLeft : Nat) : Nat :=
  if cardsLeft ≤ 0 then 0
  else if cardsLeft ≤ 4 then cardsLeft
  else if cardsLeft ≤ 9 then cardsLeft * 2
  else cardsLeft * 3

/-- The game-over summary broadcast by `finishMatch`. -/
structure GameOverSummary where
  scores : List Nat
  busted : List Nat
  champion : Nat
  deriving DecidableEq, Repr

/-- `Math.min(...scores)` over a nonempty list. -/
def minNatList (l : List Nat) : Nat :=
  match l with
  | [] => 0
  | x :: xs => xs.foldl min x

/-- `finishMatch(room, winnerIdx)` up to its synchronous effects: apply
penalties; if any score exceeds 100 the game finishes and the summary is
produced; otherwise `matchNumber` is incremented (the deferred
`startNewMatch(room, winnerIdx, false)` is a separate event, modelled by
applying `startNewMatch` to the result). -/
def finishMatch (room : Room) (winnerIdx : Nat) : Room × Option GameOverSummary :=
  let newScores := room.scores.enum.map (fun p =>
    if p.1 = winnerIdx then p.2
    else p.2 + penaltyPoints (room.players.getD p.1 dfltPlayer).hand.length)
  let busted := (newScores.enum.filter (fun p => p.2 > 100)).map (fun p => p.1)
  if busted ≠ [] then
    let minScore := minNatList newScores
    let champion := newScores.findIdx (fun s => s == minScore)
    ({ room with scores := newScores, finished := true },
     some ⟨newScores, busted, champion⟩)
  else
    ({ room with scores := newScores, matchNumber := room.matchNumber + 1 },
     none)

/-- The post-validation mutations of `handlePlay` (lines 425-432), plus
the match-win / turn-advance / trick-close tail (lines 456-489). -/
def applyPlay (room : Room) (meIdx : Nat) (cardIds : List Card)
    (cards : List Card) (combo : Combo) : Room :=
  let me := room.players.getD meIdx dfltPlayer
  let newHand := me.hand.filter (fun c => !cardIds.contains c)
  let room1 : Room :=
    { room with
      players := room.players.set meIdx { hand := newHand, passed := false },
      playedCards := cards.foldl
        (fun s c => if s.contains c then s else s ++ [c]) room.playedCards,
      lastPlay := some ⟨meIdx, combo, cards⟩,
      lastPlayType := some combo,
      history := room.history ++ [⟨meIdx, combo.type, cards.length, cards⟩],
      firstTrick := false }
  if newHand.isEmpty then (finishMatch room1 meIdx).1
  else
    let room2 := { room1 with turn := nextAlive room1 meIdx }
    if allOthersPassed room2 then endTrick room2 else room2

/-- `handlePlay(socket, cardIds)` with the seat already resolved from the
socket. Submitted identifiers are cards (the JS `id` string is the
rank/suit pair). -/
def handlePlay (room : Room) (meIdx : Nat) (cardIds : List Card) :
    Except (String × Room) Room :=
  if room.finished then .error ("Not in game", room)
  else if meIdx ≠ room.turn then .error ("Not your turn", room)
  else
    let me := room.players.getD meIdx dfltPlayer
    let cards := cardIds.filterMap (fun id => me.hand.find? (fun c => c == id))
    if cards.length ≠ cardIds.length then
      .error ("You do not hold these cards", room)
    else
      match classify cards with
      | none => .error ("Invalid combination", room)
      | some combo =>
        if room.firstTrick ∧ room.lastPlay = none ∧ room.enforce3D
            ∧ ¬includes3D cards then
          .error ("First play must include 3♦", room)
        else
          match room.lastPlay with
          | some lp =>
            if cards.length ≠ lp.cards.length then
              .error ("Must match number of cards", room)
            else if ¬canBeat (some lp.combo) combo then
              .error ("Does not beat previous", room)
            else .ok (applyPlay room meIdx cardIds cards combo)
          | none => .ok (applyPlay room meIdx cardIds cards combo)

/-- `dealToFour(deckShuffled)`: card `i` goes to seat `i % 4`, each hand
sorted. -/
def dealToFour (deck : List Card) : List (List Card) :=
  ([0, 1, 2, 3].map (fun j =>
    ((deck.take 52).enum.filter (fun p => p.1 % 4 = j)).map (fun p => p.2))).map
    sortHand

/-- `startNewMatch(room, startingIdx, enforce3D)` with the shuffled deck
passed explicitly (the source shuffles in place with `Math.random`). -/
def startNewMatch (room : Room) (deck : List Card)
    (startingIdx : Option Nat) (enforce3D : Bool) : Room :=
  let hands := dealToFour deck
  let players' := room.players.enum.map (fun p =>
    { p.2 with hand := hands.getD p.1 [], passed := false })
  let startIndex :=
    match startingIdx with
    | some i => i
    | none =>
      let j := players'.findIdx (fun p =>
        p.hand.any (fun c => c == (⟨.r3, .D⟩ : Card)))
      if j = players'.length then 0 else j
  { room with
    players := players',
    turn := startIndex,
    leader := startIndex,
    firstTrick := true,
    lastPlay := none,
    lastPlayType := none,
    enforce3D := enforce3D,
    playedCards := [] }

/-- The room literal built by `startGameFromWaitingRoom` (lines 338-365),
restricted to the modelled fields. -/
def freshRoom : Room :=
  { players := [dfltPlayer, dfltPlayer, dfltPlayer, dfltPlayer],
    lastPlay := none,
    lastPlayType := none,
    turn := 0,
    leader := 0,
    firstTrick := true,
    finished := false,
    history := [],
    scores := [0, 0, 0, 0],
    matchNumber := 1,
    enforce3D := true,
    playedCards := [] }

/-- `startGameFromWaitingRoom` ends with
`startNewMatch(room, null, true)`. -/
def initRoom (deck : List Card) : Room := startNewMatch freshRoom deck none true

/-- `processAITurn`'s count vector: `-1` at the bot's own seat, hand
sizes elsewhere. -/
def aiCounts (room : Room) (currentPlayerIdx : Nat) : List Int :=
  room.players.enum.map (fun p =>
    if p.1 = currentPlayerIdx then -1 else (p.2.hand.length : Int))

-- ===== DERIVED NOTIONS USED IN STATEMENTS =====

/-- Category index of a five-card type (junk value 0 for elementary
types; statements guard with `comboIsFive`). -/
def catIdx (t : ComboType) : Nat := (fiveOrderIdx t).getD 0

/-- The three elementary (same-cardinality, key-compared) types. -/
def isElem (t : ComboType) : Bool :=
  t == .single || t == .pair || t == .triple

/-- `finishMatch`'s `newScores`: penalties applied to every non-winner. -/
def penalizedScores (room : Room) (w : Nat) : List Nat :=
  room.scores.enum.map (fun p =>
    if p.1 = w then p.2
    else p.2 + penaltyPoints (room.players.getD p.1 dfltPlayer).hand.length)

/-- `finishMatch`'s `busted`: seats whose penalized score exceeds 100. -/
def bustedList (room : Room) (w : Nat) : List Nat :=
  ((penalizedScores room w).enum.filter (fun p => p.2 > 100)).map Prod.fst

/-- All cards of a list share one rank (permutation-invariant reading of
the source's `sameRank`). -/
def allSameRank (l : List Card) : Prop := ∀ a ∈ l, ∀ b ∈ l, a.r = b.r

instance : DecidablePred allSameRank := fun l =>
  inferInstanceAs (Decidable (∀ a ∈ l, ∀ b ∈ l, a.r = b.r))

/-- Error message of a rejected handler call, `none` on success. -/
def errMsgOf (x : Except (String × Room) Room) : Option String :=
  match x with
  | .error (e, _) => some e
  | .ok _ => none

/-- Room carried by a rejected handler call, `none` on success. -/
def errRoomOf (x : Except (String × Room) Room) : Option Room :=
  match x with
  | .error (_, r) => some r
  | .ok _ => none

/-- Result room of an accepted handler call, `none` on rejection. -/
def okRoomOf (x : Except (String × Room) Room) : Option Room :=
  match x with
  | .ok r => some r
  | .error _ => none

-- ===== CONCRETE FIXTURES =====

def card3D : Card := ⟨.r3, .D⟩
def card4D : Card := ⟨.r4, .D⟩
def card5D : Card := ⟨.r5, .D⟩
def card6D : Card := ⟨.r6, .D⟩
def card7D : Card := ⟨.r7, .D⟩
def card4C : Card := ⟨.r4, .C⟩

/-- A first-match room about to receive its opening lead: seat 0 holds
3♦ plus 4♣ and is on turn. -/
def roomOpen : Room :=
  { players := [⟨[card3D, card4C], false⟩, ⟨[card5D], false⟩,
                ⟨[card4D], false⟩, ⟨[card6D], false⟩],
    lastPlay := none,
    lastPlayType := none,
    turn := 0,
    leader := 0,
    firstTrick := false,
    finished := false,
    history := [],
    scores := [0, 0, 0, 0],
    matchNumber := 1,
    enforce3D := false,
    playedCards := [] }

/-- `roomOpen` in the very first trick of match 1 (3♦ enforced). -/
def roomFirstLead : Room := { roomOpen with firstTrick := true, enforce3D := true }

/-- A mid-trick room: seat 0 led the single 3♦, seat 1 is on turn. -/
def roomMid : Room :=
  { players := [⟨[card4C, card6D], false⟩, ⟨[card5D], false⟩,
                ⟨[card4D], false⟩, ⟨[card7D], false⟩],
    lastPlay := some ⟨0, ⟨.single, 0⟩, [card3D]⟩,
    lastPlayType := some ⟨.single, 0⟩,
    turn := 1,
    leader := 0,
    firstTrick := false,
    finished := false,
    history := [⟨0, .single, 1, [card3D]⟩],
    scores := [0, 0, 0, 0],
    matchNumber := 1,
    enforce3D := true,
    playedCards := [card3D] }

/-- `roomMid` with seats 2 and 3 already passed, so seat 1's pass closes
the trick. -/
def roomAlmostClosed : Room :=
  { roomMid with
    players := [⟨[card4C, card6D], false⟩, ⟨[card5D], false⟩,
                ⟨[card4D], true⟩, ⟨[card7D], true⟩] }

/-- A match just won by seat 1 with bust-level scores at seat 0. -/
def roomBust : Room :=
  { roomOpen with
    players := [⟨[card3D, card4C, card5D, card6D], false⟩, ⟨[], false⟩,
                ⟨[card4D], false⟩, ⟨[card7D], false⟩],
    scores := [99, 0, 50, 3] }

/-- A match just won by seat 1 with low scores (the game continues). -/
def roomCont : Room := { roomBust with scores := [10, 0, 50, 3] }

-- ===== SUPPORTING LEMMAS =====

set_option maxRecDepth 40000

theorem cardle_iff_key (a b : Card) : cardle a b ↔ cardKey a ≤ cardKey b := by
  revert a b; decide

theorem cardKey_inj (a b : Card) : cardKey a = cardKey b → a = b := by
  revert a b; decide

theorem sortHand_perm (l : List Card) : (sortHand l).Perm l :=
  List.perm_insertionSort cardle l

/-- Permutation-equal hands sort identically (the comparator is a total
order, so JS `Array.sort` output is the unique sorted arrangement). -/
theorem sortHand_congr {l₁ l₂ : List Card} (h : l₁.Perm l₂) :
    sortHand l₁ = sortHand l₂ := by
  haveI : IsTotal Card cardle := ⟨fun a b => by
    rw [cardle_iff_key, cardle_iff_key]; exact Nat.le_total _ _⟩
  haveI : IsTrans Card cardle := ⟨fun a b c hab hbc => by
    rw [cardle_iff_key] at *; exact Nat.le_trans hab hbc⟩
  haveI : IsAntisymm Card cardle := ⟨fun a b hab hba => by
    rw [cardle_iff_key] at *; exact cardKey_inj a b (Nat.le_antisymm hab hba)⟩
  refine List.eq_of_perm_of_sorted ?_ (List.sorted_insertionSort cardle l₁)
    (List.sorted_insertionSort cardle l₂)
  exact ((sortHand_perm l₁).trans h).trans (sortHand_perm l₂).symm

theorem classifyCore_none (n : Nat) (sorted : List Card) (h1 : n ≠ 1)
    (h2 : n ≠ 2) (h3 : n ≠ 3) (h5 : n ≠ 5) : classifyCore n sorted = none := by
  simp [classifyCore, h1, h2, h3, h5]

theorem sameRank_iff {l : List Card} (h : l ≠ []) :
    sameRank l = true ↔ allSameRank l := by
  have hmem : l.headD dfltCard ∈ l := by
    rw [List.headD_eq_head?, List.head?_eq_head h]
    exact List.head_mem h
  unfold sameRank allSameRank
  rw [List.all_eq_true]
  constructor
  · intro hs a ha b hb
    have h1 := beq_iff_eq.mp (hs a ha)
    have h2 := beq_iff_eq.mp (hs b hb)
    rw [h1, h2]
  · intro hall c hc
    exact beq_iff_eq.mpr (hall c hc _ hmem)

theorem getD_enum_map {α β : Type} (l : List α) (f : Nat × α → β) (i : Nat)
    (d : β) (h : i < l.length) : (l.enum.map f).getD i d = f (i, l[i]) := by
  rw [List.getD_eq_getElem?_getD, List.getElem?_map, List.getElem?_enum]
  simp [List.getElem?_eq_getElem h]

theorem finishMatch_fst_scores (room : Room) (w : Nat) :
    (finishMatch room w).1.scores = room.scores.enum.map (fun p =>
      if p.1 = w then p.2
      else p.2 + penaltyPoints (room.players.getD p.1 dfltPlayer).hand.length) := by
  simp only [finishMatch]
  split <;> rfl

-- ===== CLAIM THEOREMS =====

/-- C2: penalties are `n` for `1 ≤ n ≤ 4`, `2n` for `5 ≤ n ≤ 9`, `3n`
for `10 ≤ n ≤ 13` (so 1, 4, 5, 9, 10, 13 remaining cards cost 1, 4, 10,
18, 30, 39); `finishMatch` adds each non-winner's penalty to its
cumulative score and leaves the winner's score unchanged. -/
theorem penalty_formula_and_scoring :
    (∀ n : Nat, 1 ≤ n → n ≤ 4 → penaltyPoints n = n) ∧
    (∀ n : Nat, 5 ≤ n → n ≤ 9 → penaltyPoints n = 2 * n) ∧
    (∀ n : Nat, 10 ≤ n → n ≤ 13 → penaltyPoints n = 3 * n) ∧
    (penaltyPoints 1 = 1 ∧ penaltyPoints 4 = 4 ∧ penaltyPoints 5 = 10 ∧
      penaltyPoints 9 = 18 ∧ penaltyPoints 10 = 30 ∧ penaltyPoints 13 = 39) ∧
    (∀ (room : Room) (w : Nat), w < room.scores.length →
      (finishMatch room w).1.scores.getD w 0 = room.scores.getD w 0) ∧
    (∀ (room : Room) (w i : Nat), i < room.scores.length → i ≠ w →
      (finishMatch room w).1.scores.getD i 0 = room.scores.getD i 0 +
        penaltyPoints (room.players.getD i dfltPlayer).hand.length) := by
  refine ⟨?_, ?_, ?_, by decide, ?_, ?_⟩
  · intro n h1 h2; simp only [penaltyPoints]; split_ifs <;> omega
  · intro n h1 h2; simp only [penaltyPoints]; split_ifs <;> omega
  · intro n h1 h2; simp only [penaltyPoints]; split_ifs <;> omega
  · intro room w h
    rw [finishMatch_fst_scores, getD_enum_map _ _ _ _ h]
    simp [List.getD_eq_getElem?_getD, List.getElem?_eq_getElem h]
  · intro room w i h hne
    rw [finishMatch_fst_scores, getD_enum_map _ _ _ _ h]
    simp [hne, List.getD_eq_getElem?_getD, List.getElem?_eq_getElem h]

/-- C2 witness: in `roomBust` seat 1 just won; seat 0 (4 cards) pays 4,
seat 2 (1 card) pays 1, seat 3 (1 card) pays 1, the winner pays 0. -/
theorem penalty_formula_and_scoring_witness :
    penaltyPoints 7 = 2 * 7 ∧
    (finishMatch roomBust 1).1.scores.getD 1 0 = 0 ∧
    (finishMatch roomBust 1).1.scores.getD 0 0 = 99 + 4 := by
  refine ⟨penalty_formula_and_scoring.2.1 7 (by decide) (by decide), ?_, ?_⟩
  · have h := penalty_formula_and_scoring.2.2.2.2.1 roomBust 1 (by decide)
    simpa using h
  · have h := penalty_formula_and_scoring.2.2.2.2.2 roomBust 1 0 (by decide)
      (by decide)
    simpa using h

/-- C9: `classify` rejects every input whose length is not 1, 2, 3 or 5,
and every 2- or 3-card input whose cards do not all share one rank. -/
theorem classify_rejects_bad_shapes :
    (∀ l : List Card, l.length ≠ 1 → l.length ≠ 2 → l.length ≠ 3 →
      l.length ≠ 5 → classify l = none) ∧
    (∀ l : List Card, l.length = 2 ∨ l.length = 3 → ¬allSameRank l →
      classify l = none) := by
  constructor
  · intro l h1 h2 h3 h5
    exact classifyCore_none _ _ h1 h2 h3 h5
  · intro l hlen hnsr
    have hne : l ≠ [] := by
      rcases hlen with h | h <;> (intro he; rw [he] at h; simp at h)
    have hsne : sortHand l ≠ [] := by
      intro he
      have hl := (sortHand_perm l).length_eq
      rw [he] at hl
      exact hne (List.length_eq_zero.mp hl.symm)
    have hsr : ¬sameRank (sortHand l) = true := by
      rw [sameRank_iff hsne]
      intro hall
      exact hnsr (fun a ha b hb =>
        hall a ((sortHand_perm l).mem_iff.mpr ha) b
          ((sortHand_perm l).mem_iff.mpr hb))
    unfold classify classifyCore
    rcases hlen with h | h <;> rw [h] <;> simp [hsr]

/-- C9 witness: the empty list, a 4-card list, and a 2-card list of
differing ranks all classify as invalid. -/
theorem classify_rejects_bad_shapes_witness :
    classify [] = none ∧
    classify [card3D, card4D, card5D, card6D] = none ∧
    classify [card3D, card4C] = none :=
  ⟨classify_rejects_bad_shapes.1 [] (by decide) (by decide) (by decide)
      (by decide),
   classify_rejects_bad_shapes.1 _ (by decide) (by decide) (by decide)
      (by decide),
   classify_rejects_bad_shapes.2 _ (Or.inl rfl) (by decide)⟩

/-- C4: `classify` is a function (total and deterministic by
construction, with the eight `ComboType` variants or `none` as its only
results); its result is invariant under permutation of the input, and
every accepted input has length 1, 2, 3 or 5. -/
theorem classify_total_perm_invariant :
    (∀ l₁ l₂ : List Card, l₁.Perm l₂ → classify l₁ = classify l₂) ∧
    (∀ (l : List Card) (c : Combo), classify l = some c →
      l.length = 1 ∨ l.length = 2 ∨ l.length = 3 ∨ l.length = 5) := by
  constructor
  · intro l₁ l₂ h
    unfold classify
    rw [h.length_eq, sortHand_congr h]
  · intro l c hc
    by_contra hn
    push_neg at hn
    rw [classify, classifyCore_none _ _ hn.1 hn.2.1 hn.2.2.1 hn.2.2.2] at hc
    exact Option.noConfusion hc

/-- C4 witness: a straight submitted in two different orders classifies
identically, and a classified single has a legal length. -/
theorem classify_total_perm_invariant_witness :
    classify [card5D, card3D, card4D, card6D, card7D] =
      classify [card3D, card4D, card5D, card6D, card7D] ∧
    ((1 : Nat) = 1 ∨ (1 : Nat) = 2 ∨ (1 : Nat) = 3 ∨ (1 : Nat) = 5) :=
  ⟨classify_total_perm_invariant.1 _ _ (by decide),
   classify_total_perm_invariant.2 [card3D] ⟨.single, 0⟩ (by decide)⟩

theorem canBeat_elem_char (x y : Combo) (he : isElem x.type = true)
    (hty : x.type = y.type) : canBeat (some x) y = decide (x.key < y.key) := by
  obtain ⟨tx, kx⟩ := x
  obtain ⟨ty, ky⟩ := y
  simp only at hty
  subst hty
  cases tx <;> simp_all [canBeat, isElem]

theorem canBeat_five_char (x y : Combo) (hx : comboIsFive x = true)
    (hy : comboIsFive y = true) :
    canBeat (some x) y = decide (catIdx x.type < catIdx y.type ∨
      (catIdx x.type = catIdx y.type ∧ x.key < y.key)) := by
  obtain ⟨tx, kx⟩ := x
  obtain ⟨ty, ky⟩ := y
  cases tx <;> cases ty <;>
    simp_all [canBeat, compareCombos, comboIsFive, fiveOrder, fiveOrderIdx,
      catIdx, List.findIdx?]

theorem catIdx_inj_on_five : ∀ t u : ComboType,
    fiveOrder.contains t = true → fiveOrder.contains u = true →
    catIdx t = catIdx u → t = u := by decide

/-- C3: `canBeat` is irreflexive on every combination; within each
elementary type it is exactly strict key comparison (hence transitive);
on five-card combinations it is the strict lexicographic order on
(category index, key) — category `straight < flush < fullhouse <
fourkind < straightflush` first, key second — which is transitive and
total. -/
theorem canBeat_strict_order :
    (∀ x : Combo, canBeat (some x) x = false) ∧
    (∀ x y : Combo, isElem x.type = true → x.type = y.type →
      canBeat (some x) y = decide (x.key < y.key)) ∧
    (∀ x y z : Combo, isElem x.type = true → x.type = y.type →
      y.type = z.type → canBeat (some x) y = true →
      canBeat (some y) z = true → canBeat (some x) z = true) ∧
    (∀ x y : Combo, comboIsFive x = true → comboIsFive y = true →
      canBeat (some x) y = decide (catIdx x.type < catIdx y.type ∨
        (catIdx x.type = catIdx y.type ∧ x.key < y.key))) ∧
    (∀ x y z : Combo, comboIsFive x = true → comboIsFive y = true →
      comboIsFive z = true → canBeat (some x) y = true →
      canBeat (some y) z = true → canBeat (some x) z = true) ∧
    (∀ x y : Combo, comboIsFive x = true → comboIsFive y = true →
      canBeat (some x) y = true ∨ canBeat (some y) x = true ∨
        (x.type = y.type ∧ x.key = y.key)) := by
  refine ⟨?_, canBeat_elem_char, ?_, canBeat_five_char, ?_, ?_⟩
  · intro x
    obtain ⟨t, k⟩ := x
    cases t <;>
      simp [canBeat, compareCombos, comboIsFive, fiveOrder, fiveOrderIdx]
  · intro x y z he hxy hyz h1 h2
    rw [canBeat_elem_char x y he hxy] at h1
    rw [canBeat_elem_char y z (by rw [← hxy]; exact he) hyz] at h2
    rw [canBeat_elem_char x z he (hxy.trans hyz)]
    simp only [decide_eq_true_eq] at *
    omega
  · intro x y z hx hy hz h1 h2
    rw [canBeat_five_char x y hx hy] at h1
    rw [canBeat_five_char y z hy hz] at h2
    rw [canBeat_five_char x z hx hz]
    simp only [decide_eq_true_eq] at *
    omega
  · intro x y hx hy
    rcases Nat.lt_trichotomy (catIdx x.type) (catIdx y.type) with h | h | h
    · exact Or.inl (by rw [canBeat_five_char x y hx hy]; simp [h])
    · have hty : x.type = y.type := catIdx_inj_on_five _ _ hx hy h
      rcases Nat.lt_trichotomy x.key y.key with hk | hk | hk
      · exact Or.inl (by rw [canBeat_five_char x y hx hy]; simp [h, hk])
      · exact Or.inr (Or.inr ⟨hty, hk⟩)
      · refine Or.inr (Or.inl ?_)
        rw [canBeat_five_char y x hy hx]
        simp [h.symm, hk]
    · refine Or.inr (Or.inl ?_)
      rw [canBeat_five_char y x hy hx]
      simp [h]

/-- C3 witness: a straight never beats itself; a higher single beats a
lower one and not conversely; a fourkind beats a fullhouse regardless of
keys; two concrete straights are comparable. -/
theorem canBeat_strict_order_witness :
    canBeat (some ⟨.straight, 31⟩) ⟨.straight, 31⟩ = false ∧
    canBeat (some ⟨.single, 0⟩) ⟨.single, 11⟩ = decide ((0 : Nat) < 11) ∧
    canBeat (some ⟨.fullhouse, 9⟩) ⟨.fourkind, 4⟩ = true ∧
    (canBeat (some ⟨.straight, 31⟩) ⟨.straight, 52⟩ = true ∨
      canBeat (some ⟨.straight, 52⟩) ⟨.straight, 31⟩ = true ∨
      ((ComboType.straight, (31 : Nat)) = (ComboType.straight, 52))) := by
  refine ⟨canBeat_strict_order.1 ⟨.straight, 31⟩,
    canBeat_strict_order.2.1 ⟨.single, 0⟩ ⟨.single, 11⟩ (by decide) rfl,
    ?_, ?_⟩
  · have h := canBeat_strict_order.2.2.2.1 ⟨.fullhouse, 9⟩ ⟨.fourkind, 4⟩
      (by decide) (by decide)
    rw [h]; decide
  · have h := canBeat_strict_order.2.2.2.2.2 ⟨.straight, 31⟩ ⟨.straight, 52⟩
      (by decide) (by decide)
    rcases h with h | h | h
    · exact Or.inl h
    · exact Or.inr (Or.inl h)
    · exact Or.inr (Or.inr (by simp_all))

theorem getD_set_self' {α : Type} (l : List α) (i : Nat) (x d : α)
    (h : i < l.length) : (l.set i x).getD i d = x := by
  rw [List.getD_eq_getElem?_getD, List.getElem?_set_self h]
  rfl

theorem getD_set_ne' {α : Type} (l : List α) (i j : Nat) (x d : α)
    (h : i ≠ j) : (l.set i x).getD j d = l.getD j d := by
  rw [List.getD_eq_getElem?_getD, List.getElem?_set_ne h,
    ← List.getD_eq_getElem?_getD]

theorem map_hand_set_passed (l : List PlayerSt) (i : Nat) (b : Bool) :
    (l.set i { l.getD i dfltPlayer with passed := b }).map PlayerSt.hand =
      l.map PlayerSt.hand := by
  induction l generalizing i with
  | nil => simp
  | cons a t ih =>
    cases i with
    | zero => simp
    | succ n =>
      simp only [List.getD_cons_succ, List.set_cons_succ, List.map_cons]
      rw [ih]

theorem map_hand_clear (l : List PlayerSt) :
    (l.map (fun p => { p with passed := false })).map PlayerSt.hand =
      l.map PlayerSt.hand := by
  rw [List.map_map]; rfl

theorem passed_clear (l : List PlayerSt) (i : Nat) :
    ((l.map (fun p => { p with passed := false })).getD i dfltPlayer).passed =
      false := by
  induction l generalizing i with
  | nil => simp [dfltPlayer]
  | cons a t ih =>
    cases i with
    | zero => simp
    | succ n =>
      simp only [List.map_cons, List.getD_cons_succ]
      exact ih n

/-- C6: every rejected `handlePlay` or `handlePass` carries, at the
throw site, exactly the room it was given — no field has been mutated
when any of the validations fails. -/
theorem rejection_leaves_room_unchanged :
    (∀ (room : Room) (meIdx : Nat) (cardIds : List Card) (e : String)
      (r' : Room),
      handlePlay room meIdx cardIds = .error (e, r') → r' = room) ∧
    (∀ (room : Room) (meIdx : Nat) (e : String) (r' : Room),
      handlePass room meIdx = .error (e, r') → r' = room) := by
  constructor
  · intro room meIdx cardIds e r' h
    unfold handlePlay at h
    simp only [] at h
    repeat' split at h
    all_goals simp_all
  · intro room meIdx e r' h
    unfold handlePass at h
    simp only [] at h
    repeat' split at h
    all_goals simp_all

/-- C6 witness: in `roomMid` an out-of-turn pass by seat 2 is rejected
and the carried state equals the input room. -/
theorem rejection_leaves_room_unchanged_witness :
    errRoomOf (handlePass roomMid 2) = some roomMid := by
  cases hx : handlePass roomMid 2 with
  | ok r =>
    have hbad : (handlePass roomMid 2).isOk = false := by decide
    rw [hx] at hbad
    simp [Except.isOk, Except.toBool] at hbad
  | error p =>
    obtain ⟨e0, r0⟩ := p
    rw [rejection_leaves_room_unchanged.2 roomMid 2 e0 r0 hx]
    rfl

theorem endTrick_eq (r : Room) (lp : LastPlay) (h : r.lastPlay = some lp) :
    endTrick r = { r with
      players := r.players.map (fun p => { p with passed := false }),
      leader := lp.byIdx, turn := lp.byIdx,
      lastPlay := none, lastPlayType := none } := by
  simp [endTrick, h]

/-- C10: an accepted pass never changes any hand, the scores, the
history, the match number or the played-card set; when it does not
close the trick only the acting seat's passed flag and the turn pointer
change, and when it closes the trick the passed flags are cleared, the
standing play's owner takes both `leader` and `turn`, and the standing
play is cleared. -/
theorem pass_frame_property :
    ∀ (room : Room) (meIdx : Nat) (r' : Room),
      meIdx < room.players.length →
      handlePass room meIdx = .ok r' →
      (r'.players.map PlayerSt.hand = room.players.map PlayerSt.hand ∧
       r'.scores = room.scores ∧ r'.history = room.history ∧
       r'.matchNumber = room.matchNumber ∧
       r'.playedCards = room.playedCards ∧ r'.firstTrick = room.firstTrick ∧
       r'.finished = room.finished ∧ r'.enforce3D = room.enforce3D) ∧
      (if allOthersPassed (markPassed room meIdx) then
        (∀ i, (r'.players.getD i dfltPlayer).passed = false) ∧
        (∃ lp, room.lastPlay = some lp ∧ r'.leader = lp.byIdx ∧
          r'.turn = lp.byIdx) ∧
        r'.lastPlay = none ∧ r'.lastPlayType = none
      else
        r'.lastPlay = room.lastPlay ∧ r'.lastPlayType = room.lastPlayType ∧
        r'.leader = room.leader ∧
        r'.turn = nextAlive (markPassed room meIdx) meIdx ∧
        (r'.players.getD meIdx dfltPlayer).passed = true ∧
        (∀ i, i ≠ meIdx → (r'.players.getD i dfltPlayer).passed =
          (room.players.getD i dfltPlayer).passed)) := by
  intro room meIdx r' hm h
  unfold handlePass at h
  simp only [] at h
  split at h
  · exact absurd h (by simp)
  · split at h
    · exact absurd h (by simp)
    · split at h
      · exact absurd h (by simp)
      · rename_i hfin hturn hlpn
        obtain ⟨lp, hlp⟩ : ∃ lp, room.lastPlay = some lp := by
          cases hx : room.lastPlay with
          | none => rw [hx] at hlpn; simp at hlpn
          | some lp => exact ⟨lp, rfl⟩
        split at h
        · rename_i hall
          injection h with h'
          subst h'
          rw [if_pos hall]
          have hmp : (markPassed room meIdx).lastPlay = some lp := hlp
          rw [endTrick_eq _ lp hmp]
          constructor
          · exact ⟨(map_hand_clear _).trans (map_hand_set_passed _ _ _),
              rfl, rfl, rfl, rfl, rfl, rfl, rfl⟩
          · exact ⟨fun i => passed_clear _ i, ⟨lp, hlp, rfl, rfl⟩, rfl, rfl⟩
        · rename_i hall
          injection h with h'
          subst h'
          rw [if_neg hall]
          refine ⟨⟨map_hand_set_passed _ _ _, rfl, rfl, rfl, rfl, rfl, rfl,
            rfl⟩, rfl, rfl, rfl, rfl, ?_, ?_⟩
          · simp only [markPassed]
            exact congrArg PlayerSt.passed (getD_set_self' _ _ _ _ hm)
          · intro i hi
            simp only [markPassed]
            exact congrArg PlayerSt.passed (getD_set_ne' _ _ _ _ _ hi.symm)

/-- C10 witness: seat 1 passes in `roomMid` (trick stays open: hands
unchanged, only its passed flag and the turn change). -/
theorem pass_frame_property_witness :
    (okRoomOf (handlePass roomMid 1)).map (fun r =>
      (r.players.map PlayerSt.hand, r.turn,
        (r.players.getD 1 dfltPlayer).passed)) =
      some (roomMid.players.map PlayerSt.hand,
        nextAlive (markPassed roomMid 1) 1, true) := by
  cases hx : handlePass roomMid 1 with
  | error p =>
    have hok : (handlePass roomMid 1).isOk = true := by decide
    rw [hx] at hok
    simp [Except.isOk, Except.toBool] at hok
  | ok r' =>
    have h := pass_frame_property roomMid 1 r' (by decide) hx
    have h2 := h.2
    rw [if_neg (by decide)] at h2
    have hp : (r'.players[1]?.getD dfltPlayer).passed = true := by
      simpa using h2.2.2.2.2.1
    simp [okRoomOf, h.1.1, h2.2.2.2.1, hp]

/-- C5: `handlePlay` raises the 3♦ error exactly when the validations
before it pass (room live, acting seat on turn, identifiers held,
legal combination), the room is awaiting the opening lead of a trick in
a match with the first-lead constraint (`firstTrick`, no standing play,
`enforce3D`), and the submitted cards omit 3♦; the initial room of a
game has the constraint on, every match started by `finishMatch`
(starter = previous winner, `enforce3D = false`) has it off, and with
the constraint off — or after the first play, or on a non-lead — the
error can never be raised. -/
theorem first_lead_rule :
    (∀ (room : Room) (meIdx : Nat) (cardIds : List Card),
      (∃ r', handlePlay room meIdx cardIds =
        .error ("First play must include 3♦", r')) ↔
      (room.finished = false ∧ meIdx = room.turn ∧
        (cardIds.filterMap (fun id =>
          (room.players.getD meIdx dfltPlayer).hand.find?
            (fun c => c == id))).length = cardIds.length ∧
        (classify (cardIds.filterMap (fun id =>
          (room.players.getD meIdx dfltPlayer).hand.find?
            (fun c => c == id)))).isSome = true ∧
        room.firstTrick = true ∧ room.lastPlay = none ∧
        room.enforce3D = true ∧
        includes3D (cardIds.filterMap (fun id =>
          (room.players.getD meIdx dfltPlayer).hand.find?
            (fun c => c == id))) = false)) ∧
    (∀ deck : List Card, (initRoom deck).enforce3D = true ∧
      (initRoom deck).firstTrick = true ∧ (initRoom deck).lastPlay = none ∧
      (initRoom deck).matchNumber = 1) ∧
    (∀ (room : Room) (deck : List Card) (w : Nat),
      (startNewMatch room deck (some w) false).enforce3D = false) ∧
    (∀ (room : Room) (meIdx : Nat) (cardIds : List Card) (r' : Room),
      room.enforce3D = false ∨ room.firstTrick = false ∨
        room.lastPlay ≠ none →
      handlePlay room meIdx cardIds ≠
        .error ("First play must include 3♦", r')) := by
  have hiff : ∀ (room : Room) (meIdx : Nat) (cardIds : List Card),
      (∃ r', handlePlay room meIdx cardIds =
        .error ("First play must include 3♦", r')) ↔
      (room.finished = false ∧ meIdx = room.turn ∧
        (cardIds.filterMap (fun id =>
          (room.players.getD meIdx dfltPlayer).hand.find?
            (fun c => c == id))).length = cardIds.length ∧
        (classify (cardIds.filterMap (fun id =>
          (room.players.getD meIdx dfltPlayer).hand.find?
            (fun c => c == id)))).isSome = true ∧
        room.firstTrick = true ∧ room.lastPlay = none ∧
        room.enforce3D = true ∧
        includes3D (cardIds.filterMap (fun id =>
          (room.players.getD meIdx dfltPlayer).hand.find?
            (fun c => c == id))) = false) := by
    intro room meIdx cardIds
    constructor
    · rintro ⟨r', h⟩
      unfold handlePlay at h
      simp only [] at h
      repeat' split at h
      all_goals simp_all
    · rintro ⟨hfin, hturn, hlen, hcls, hft, hlp, he3, h3d⟩
      refine ⟨room, ?_⟩
      unfold handlePlay
      simp only []
      rw [if_neg (by simp [hfin]), if_neg (by omega)]
      obtain ⟨combo, hcombo⟩ := Option.isSome_iff_exists.mp hcls
      rw [if_neg (by omega), hcombo]
      simp only []
      rw [if_pos ⟨hft, hlp, he3, by simpa using h3d⟩]
  refine ⟨hiff, fun deck => ⟨rfl, rfl, rfl, rfl⟩, fun room deck w => rfl, ?_⟩
  intro room meIdx cardIds r' hcond h
  have hr := (hiff room meIdx cardIds).mp ⟨r', h⟩
  rcases hcond with hc | hc | hc <;> simp_all

/-- C5 witness: in `roomFirstLead` seat 0 (holding 3♦ and 4♣) leads with
the single 4♣ and is rejected for omitting 3♦; in `roomOpen` (constraint
already lifted) the same lead goes through. -/
theorem first_lead_rule_witness :
    errMsgOf (handlePlay roomFirstLead 0 [card4C]) =
      some "First play must include 3♦" ∧
    errMsgOf (handlePlay roomOpen 0 [card4C]) = none := by
  constructor
  · obtain ⟨r', hr⟩ := (first_lead_rule.1 roomFirstLead 0 [card4C]).mpr
      ⟨rfl, rfl, by decide, by decide, rfl, rfl, rfl, by decide⟩
    rw [hr]
    rfl
  · cases hx : handlePlay roomOpen 0 [card4C] with
    | ok r => rfl
    | error p =>
      obtain ⟨e0, r0⟩ := p
      by_cases he : e0 = "First play must include 3♦"
      · subst he
        exact absurd hx
          (first_lead_rule.2.2.2 roomOpen 0 [card4C] r0 (Or.inl rfl))
      · have hok : (handlePlay roomOpen 0 [card4C]).isOk = true := by decide
        rw [hx] at hok
        simp [Except.isOk, Except.toBool] at hok

/-- C1 (code bug witnessed): submitting the duplicated identifier list
[3♦, 3♦] from a hand holding a single 3♦ passes the length check (each
occurrence is found in the hand), classifies as a pair, and is accepted:
the hand shrinks by one card while the standing play and history record
a 2-card play — the accepted identifier list is not a duplicate-free
subset of the hand. -/
theorem duplicate_id_play_accepted :
    decide ([card3D, card3D] : List Card).Nodup = false ∧
    (handlePlay roomFirstLead 0 [card3D, card3D]).isOk = true ∧
    (handlePlay roomFirstLead 0 [card3D, card3D]).toOption.map
      (fun r => ((r.players.getD 0 dfltPlayer).hand,
        (r.history.getLastD dfltHist).count,
        r.lastPlay.map (fun lp => lp.cards.length))) =
      some ([card4C], 2, some 2) := by
  exact ⟨by decide, by decide, by decide⟩

/-- C7 (code bug witnessed): responding to a standing single with hand
4♦ 5♦ and every opponent holding 13 cards, the bot plays the HIGHEST
beating single 5♦ for either coin-flip outcome (the claim requires the
weakest, 4♦): the filter `(_, idx) => idx !== -1` tests the array index,
never the −1 sentinel, so the bot's own −1 entry survives and
`minOpponentCards` is always −1 ≤ 3. -/
theorem ai_always_plays_highest :
    findValidPlays [card4D, card5D] ⟨.single, 0⟩ = [[card4D], [card5D]] ∧
    getAIPlay [card4D, card5D] true (some ⟨.single, 0⟩) [-1, 13, 13, 13]
      false = some [card5D] ∧
    getAIPlay [card4D, card5D] true (some ⟨.single, 0⟩) [-1, 13, 13, 13]
      true = some [card5D] ∧
    minIntList (([(-1 : Int), 13, 13, 13].enum.filter
      (fun p => (p.1 : Int) ≠ -1)).map (fun p => p.2)) = -1 := by
  refine ⟨by decide, by decide, by decide, by decide⟩

theorem foldl_min_le_init (xs : List Nat) (x : Nat) : xs.foldl min x ≤ x := by
  induction xs generalizing x with
  | nil => exact Nat.le_refl x
  | cons y ys ih =>
    simp only [List.foldl_cons]
    exact Nat.le_trans (ih (min x y)) (Nat.min_le_left x y)

theorem foldl_min_le_mem (xs : List Nat) (x a : Nat) (h : a ∈ xs) :
    xs.foldl min x ≤ a := by
  induction xs generalizing x with
  | nil => cases h
  | cons y ys ih =>
    simp only [List.foldl_cons]
    rcases List.mem_cons.mp h with rfl | hmem
    · exact Nat.le_trans (foldl_min_le_init ys (min x a)) (Nat.min_le_right x a)
    · exact ih (min x y) hmem

theorem foldl_min_mem (xs : List Nat) (x : Nat) :
    xs.foldl min x = x ∨ xs.foldl min x ∈ xs := by
  induction xs generalizing x with
  | nil => exact Or.inl rfl
  | cons y ys ih =>
    simp only [List.foldl_cons]
    rcases ih (min x y) with h | h
    · rcases Nat.le_total x y with hxy | hxy
      · exact Or.inl (by rw [h]; exact Nat.min_eq_left hxy)
      · refine Or.inr ?_
        rw [h, Nat.min_eq_right hxy]
        exact List.mem_cons_self y ys
    · exact Or.inr (List.mem_cons_of_mem y h)

theorem minNatList_le (l : List Nat) (a : Nat) (h : a ∈ l) :
    minNatList l ≤ a := by
  cases l with
  | nil => cases h
  | cons x xs =>
    rcases List.mem_cons.mp h with rfl | hmem
    · exact foldl_min_le_init xs a
    · exact foldl_min_le_mem xs x a hmem

theorem minNatList_mem (l : List Nat) (h : l ≠ []) : minNatList l ∈ l := by
  cases l with
  | nil => exact absurd rfl h
  | cons x xs =>
    show xs.foldl min x ∈ x :: xs
    rcases foldl_min_mem xs x with h1 | h1
    · rw [h1]; exact List.mem_cons_self x xs
    · exact List.mem_cons_of_mem x h1

theorem bustedList_ne_nil_iff (room : Room) (w : Nat) :
    bustedList room w ≠ [] ↔ ∃ s ∈ penalizedScores room w, 100 < s := by
  unfold bustedList
  rw [Ne, List.map_eq_nil_iff, List.filter_eq_nil_iff]
  push_neg
  constructor
  · rintro ⟨⟨i, a⟩, hmem, hgt⟩
    have ha : a ∈ penalizedScores room w := by
      rw [← List.enum_map_snd (penalizedScores room w)]
      exact List.mem_map_of_mem Prod.snd hmem
    exact ⟨a, ha, by simpa using hgt⟩
  · rintro ⟨s, hs, hgt⟩
    obtain ⟨i, hi, rfl⟩ := List.mem_iff_getElem.mp hs
    refine ⟨(i, (penalizedScores room w)[i]), ?_, by simpa using hgt⟩
    have hg : (penalizedScores room w).enum[i]? =
        some (i, (penalizedScores room w)[i]) := by
      rw [List.getElem?_enum, List.getElem?_eq_getElem hi]
      rfl
    exact List.getElem?_mem hg

theorem finishMatch_eq (room : Room) (w : Nat) :
    finishMatch room w =
      if bustedList room w ≠ [] then
        ({ room with scores := penalizedScores room w, finished := true },
         some ⟨penalizedScores room w, bustedList room w,
           (penalizedScores room w).findIdx
             (fun s => s == minNatList (penalizedScores room w))⟩)
      else
        ({ room with
            scores := penalizedScores room w,
            matchNumber := room.matchNumber + 1 },
         none) := rfl

/-- C8: after penalties, the game is over exactly when some penalized
cumulative score strictly exceeds 100 (then `finished` is set and the
reported champion is the first index attaining the minimum score);
otherwise `matchNumber` grows by one and the next match — dealt with
the previous winner as `startingIdx` and no 3♦ constraint — opens with
the winner on turn and as leader. -/
theorem game_over_and_champion :
    ∀ (room : Room) (w : Nat),
      ((finishMatch room w).2.isSome = true ↔
        ∃ s ∈ (finishMatch room w).1.scores, 100 < s) ∧
      (∀ g, (finishMatch room w).2 = some g →
        (finishMatch room w).1.finished = true ∧
        g.scores = (finishMatch room w).1.scores ∧
        g.champion < g.scores.length ∧
        g.scores.getD g.champion 0 = minNatList g.scores ∧
        (∀ a ∈ g.scores, minNatList g.scores ≤ a) ∧
        (∀ j, j < g.champion → g.scores.getD j 0 ≠ minNatList g.scores)) ∧
      ((finishMatch room w).2 = none →
        (finishMatch room w).1.finished = room.finished ∧
        (finishMatch room w).1.matchNumber = room.matchNumber + 1 ∧
        (∀ deck : List Card,
          (startNewMatch (finishMatch room w).1 deck (some w) false).turn
            = w ∧
          (startNewMatch (finishMatch room w).1 deck (some w) false).leader
            = w ∧
          (startNewMatch (finishMatch room w).1 deck (some w)
            false).enforce3D = false ∧
          (startNewMatch (finishMatch room w).1 deck (some w)
            false).matchNumber = room.matchNumber + 1)) := by
  intro room w
  by_cases hb : bustedList room w ≠ []
  · rw [finishMatch_eq room w, if_pos hb]
    have hex : ∃ s ∈ penalizedScores room w, 100 < s :=
      (bustedList_ne_nil_iff room w).mp hb
    refine ⟨iff_of_true rfl hex, ?_, by intro h; simp at h⟩
    intro g hg
    have hgeq : g = ⟨penalizedScores room w, bustedList room w,
        (penalizedScores room w).findIdx
          (fun s => s == minNatList (penalizedScores room w))⟩ := by
      injection hg with h'
      exact h'.symm
    subst hgeq
    obtain ⟨s, hs, _⟩ := hex
    have hne : penalizedScores room w ≠ [] := List.ne_nil_of_mem hs
    have hexists : ∃ x ∈ penalizedScores room w,
        (fun s => s == minNatList (penalizedScores room w)) x = true :=
      ⟨minNatList (penalizedScores room w), minNatList_mem _ hne,
        beq_self_eq_true _⟩
    have hlt := List.findIdx_lt_length_of_exists hexists
    refine ⟨rfl, rfl, hlt, ?_, fun a ha => minNatList_le _ a ha, ?_⟩
    · rw [List.getD_eq_getElem?_getD, List.getElem?_eq_getElem hlt]
      exact beq_iff_eq.mp (List.findIdx_getElem (w := hlt))
    · intro j hj
      have hjlen : j < (penalizedScores room w).length := Nat.lt_trans hj hlt
      rw [List.getD_eq_getElem?_getD, List.getElem?_eq_getElem hjlen,
        Option.getD_some]
      intro hcontra
      have hfalse := List.not_of_lt_findIdx hj
      rw [hcontra] at hfalse
      simp at hfalse
  · rw [finishMatch_eq room w, if_neg hb]
    push_neg at hb
    have hnex : ¬∃ s ∈ penalizedScores room w, 100 < s := by
      intro hex
      exact absurd hb ((bustedList_ne_nil_iff room w).mpr hex)
    refine ⟨iff_of_false (by simp) hnex, by intro g hg; simp at hg, ?_⟩
    intro _
    exact ⟨rfl, rfl, fun deck => ⟨rfl, rfl, rfl, rfl⟩⟩

/-- C8 witness: seat 1 wins in `roomBust` (seat 0 busts at 103; the
champion is seat 1 with the minimum score 0, game over), and in
`roomCont` (nobody busts: the next match opens with winner 1 on turn,
match number incremented). -/
theorem game_over_and_champion_witness :
    (finishMatch roomBust 1).1.finished = true ∧
    (finishMatch roomCont 1).1.matchNumber = roomCont.matchNumber + 1 ∧
    (startNewMatch (finishMatch roomCont 1).1 makeDeck (some 1) false).turn
      = 1 ∧
    (startNewMatch (finishMatch roomCont 1).1 makeDeck (some 1)
      false).enforce3D = false := by
  refine ⟨((game_over_and_champion roomBust 1).2.1 ⟨[103, 0, 51, 4], [0], 1⟩
    (by decide)).1, ?_, ?_, ?_⟩
  · exact ((game_over_and_champion roomCont 1).2.2 (by decide)).2.1
  · exact (((game_over_and_champion roomCont 1).2.2 (by decide)).2.2
      makeDeck).1
  · exact (((game_over_and_champion roomCont 1).2.2 (by decide)).2.2
      makeDeck).2.2.1

end Big2
